import Mathlib

set_option maxRecDepth 8000

/-!
Verification model of the data discovery and aggregation pipeline of
src/main.py (a Streamlit dashboard over per-school environment CSV files
and a growth spreadsheet).  Filenames are modelled at the level of Unicode
code points (List Nat); the normalization function nfc is modelled by the
algorithmic Hangul composition of UAX 15, which is exactly the behaviour
of unicodedata.normalize("NFC", s) on text made of Hangul syllables, Hangul
jamo and characters without canonical decompositions (ASCII included) -
the only characters occurring in the filenames of this program.
-/

namespace PolarPlant

/-- Filenames and school identifiers as lists of Unicode code points. -/
abbrev Name := List Nat

/-- Code points of a string literal. -/
def cps (s : String) : Name := s.data.map Char.toNat

/-! Hangul syllable composition constants (UAX 15, section 3.12). -/

def SBase : Nat := 0xAC00
def LBase : Nat := 0x1100
def VBase : Nat := 0x1161
def TBase : Nat := 0x11A7
def LCount : Nat := 19
def VCount : Nat := 21
def TCount : Nat := 28
def NCount : Nat := VCount * TCount
def SCount : Nat := LCount * NCount

/-- Canonical decomposition of one code point: a Hangul syllable splits into
its leading consonant, vowel and optional trailing consonant jamo; any other
code point in the modelled repertoire has no decomposition. -/
def decompChar (c : Nat) : List Nat :=
  if SBase ≤ c ∧ c < SBase + SCount then
    if (c - SBase) % TCount = 0 then
      [LBase + (c - SBase) / NCount, VBase + ((c - SBase) % NCount) / TCount]
    else
      [LBase + (c - SBase) / NCount, VBase + ((c - SBase) % NCount) / TCount,
        TBase + (c - SBase) % TCount]
  else [c]

/-- Canonical decomposition (NFD) of a code point sequence. -/
def nfd (s : List Nat) : List Nat := s.flatMap decompChar

/-- Canonical pairwise composition: leading consonant + vowel gives an LV
syllable, LV syllable + trailing consonant gives an LVT syllable. -/
def composePair (a b : Nat) : Option Nat :=
  if LBase ≤ a ∧ a < LBase + LCount ∧ VBase ≤ b ∧ b < VBase + VCount then
    some (SBase + ((a - LBase) * VCount + (b - VBase)) * TCount)
  else if SBase ≤ a ∧ a < SBase + SCount ∧ (a - SBase) % TCount = 0 ∧
      TBase < b ∧ b < TBase + TCount then
    some (a + (b - TBase))
  else none

/-- Composition sweep: the accumulator is the last emitted starter, combined
with the next code point whenever the pair composes. -/
def nfcAux (last : Nat) : List Nat → List Nat
  | [] => [last]
  | c :: rest =>
    match composePair last c with
    | some m => nfcAux m rest
    | none => last :: nfcAux c rest

/-- Canonical composition (NFC) of a code point sequence; models
unicodedata.normalize("NFC", s) from src/main.py for the modelled repertoire. -/
def nfc : List Nat → List Nat
  | [] => []
  | c :: rest => nfcAux c rest

/-- Model of same_name from src/main.py: equality after normalizing both
sides to NFC, never on the raw code unit sequences. -/
def same_name (a b : Name) : Bool := nfc a = nfc b

/-! Constants of src/main.py (lines 33-49). -/

def SCHOOLS : List Name := [cps "송도고", cps "하늘고", cps "아라고", cps "동산고"]

/-- The school to target EC concentration mapping (EC_TARGET dict). -/
def EC_TARGET : List (Name × Rat) :=
  [(cps "송도고", 1), (cps "하늘고", 2), (cps "아라고", 4), (cps "동산고", 8)]

/-- Dictionary lookup in EC_TARGET, as used by Series.map: a school outside
the mapping gets a missing value. -/
def ecTargetOf (s : Name) : Option Rat :=
  (EC_TARGET.find? fun p => p.1 == s).map Prod.snd

def ENV_FILES : List Name :=
  [cps "송도고_환경데이터.csv", cps "하늘고_환경데이터.csv",
    cps "아라고_환경데이터.csv", cps "동산고_환경데이터.csv"]

def GROWTH_FILE : Name := cps "4개교_생육결과데이터.xlsx"

/-! Directory resolver (find_data_dir, src/main.py lines 63-73). -/

/-- A filesystem path as its component list from the root; dropLast models
Path.parent, so the parent of the root is the root itself, as in pathlib. -/
abbrev FsPath := List String

/-- Loop body of find_data_dir: the existing directories of the filesystem
are an explicit list, so membership models exists() combined with is_dir(). -/
def find_data_dir_go (fs : List FsPath) : Nat → FsPath → Option FsPath
  | 0, _ => none
  | n + 1, cur =>
    if (cur ++ ["data"]) ∈ fs then some (cur ++ ["data"])
    else find_data_dir_go fs n cur.dropLast

/-- Model of find_data_dir: probe the start location and at most four
successive parents (range(5)) for a directory literally named data. -/
def find_data_dir (fs : List FsPath) (start : FsPath) : Option FsPath :=
  find_data_dir_go fs 5 start

/-- Ancestor of a path after a given number of parent hops. -/
def iterParent (p : FsPath) : Nat → FsPath
  | 0 => p
  | n + 1 => iterParent p.dropLast n

/-! Filesystem contents and the two loaders. -/

/-- Raw row of an environment CSV as produced by pd.read_csv: the required
schema columns, the timestamp still a raw string. -/
structure RawEnvRow where
  time : String
  temperature : Rat
  humidity : Rat
  ph : Rat
  ec : Rat
deriving DecidableEq

/-- Raw row of one sheet of the growth workbook: the fresh weight column. -/
structure RawGrowthRow where
  weight : Rat
deriving DecidableEq

/-- Contents of an on-disk file: a readable CSV, a readable workbook whose
sheets are named row lists, or a file whose read raises. -/
inductive FileData where
  | csv (rows : List RawEnvRow)
  | xlsx (sheets : List (Name × List RawGrowthRow))
  | corrupt
deriving DecidableEq

/-- One entry of the data directory as listed by iterdir(). -/
structure DirEntry where
  name : Name
  isFile : Bool
  data : FileData
deriving DecidableEq

/-- Model of pd.read_csv: the rows of a readable CSV, raising (Except.error)
on any other content. -/
def read_csv : FileData → Except Unit (List RawEnvRow)
  | .csv rows => .ok rows
  | _ => .error ()

/-- One row of the unified environment table. -/
structure EnvRow where
  time : Option Nat
  temperature : Rat
  humidity : Rat
  ph : Rat
  ec : Rat
  school : Name
deriving DecidableEq

/-- Model of fname.split("_")[0]: the code points before the first
underscore (0x5F), or the whole name when there is none. -/
def underscoreStem (n : Name) : Name := n.takeWhile fun c => c ≠ 95

/-- Per-file processing of src/main.py lines 85-89: the timestamp column is
parsed element-wise with unparseable values coerced to the missing marker
(none, modelling NaT from errors="coerce"), and a school column derived from
the logical filename constant is appended.  The parse argument stands for
pd.to_datetime on one value. -/
def load_csv_rows (parse : String → Option Nat) (fname : Name)
    (raws : List RawEnvRow) : List EnvRow :=
  raws.map fun r =>
    { time := parse r.time, temperature := r.temperature, humidity := r.humidity,
      ph := r.ph, ec := r.ec, school := underscoreStem fname }

/-- Inner loop of load_environment_data for one logical filename: scan the
directory entries, read the first file whose name matches under
normalization, then stop (the break); a read failure propagates out. -/
def scanEnvFile (parse : String → Option Nat) (fname : Name) :
    List DirEntry → Except Unit (List EnvRow)
  | [] => .ok []
  | e :: rest =>
    if e.isFile && same_name e.name fname then
      match read_csv e.data with
      | .ok raws => .ok (load_csv_rows parse fname raws)
      | .error u => .error u
    else scanEnvFile parse fname rest

/-- Outer loop of load_environment_data over the logical filenames. -/
def loadEnvFiles (parse : String → Option Nat) (dir : List DirEntry) :
    List Name → Except Unit (List EnvRow)
  | [] => .ok []
  | f :: fs =>
    match scanEnvFile parse f dir with
    | .error u => .error u
    | .ok rows =>
      match loadEnvFiles parse dir fs with
      | .error u => .error u
      | .ok rest => .ok (rows ++ rest)

/-- Model of load_environment_data (src/main.py lines 80-95).  An
Except.error is an uncaught exception escaping the function; pd.concat with
ignore_index and the empty-DataFrame return for no matches both collapse to
the plain list union. -/
def load_environment_data (parse : String → Option Nat) (dir : List DirEntry) :
    Except Unit (List EnvRow) :=
  loadEnvFiles parse dir ENV_FILES

/-- User-facing messages emitted inside load_environment_data: the body of
the source function contains no reporting call at all (no st.error,
st.warning or print), so the list of per-file reports is empty on every
input; the only related message is emitted by the caller, and only when the
returned table is empty as a whole. -/
def load_environment_reports (_parse : String → Option Nat)
    (_dir : List DirEntry) : List String := []

/-- One row of the unified growth table. -/
structure GrowthRow where
  weight : Rat
  school : Name
deriving DecidableEq

/-- Union of the sheets of the workbook, each sheet tagged with its sheet
name as the school column (src/main.py lines 104-108). -/
def concatSheets (sheets : List (Name × List RawGrowthRow)) : List GrowthRow :=
  sheets.flatMap fun p => p.2.map fun r => { weight := r.weight, school := p.1 }

/-- Model of load_growth_data (src/main.py lines 99-109): the first matching
file is read as a workbook and its sheets unioned; with no match the
function falls through to an empty table.  Reading a non-workbook raises. -/
def load_growth_data : List DirEntry → Except Unit (List GrowthRow)
  | [] => .ok []
  | e :: rest =>
    if e.isFile && same_name e.name GROWTH_FILE then
      match e.data with
      | .xlsx sheets => .ok (concatSheets sheets)
      | _ => .error ()
    else load_growth_data rest

/-- Outcome of the top-level script once the data directory is found: an
uncaught exception (crash), a halt behind a single user-facing error message
(st.error then st.stop), or a full render of the tabs. -/
inductive Outcome where
  | crash
  | haltedEnvMissing
  | haltedGrowthMissing
  | rendered
deriving DecidableEq

/-- Lines 127-137 of src/main.py: both loaders run, then the two empty-table
guards halt with an error message before any chart is rendered. -/
def dashboard (parse : String → Option Nat) (dir : List DirEntry) : Outcome :=
  match load_environment_data parse dir with
  | .error _ => .crash
  | .ok env =>
    match load_growth_data dir with
    | .error _ => .crash
    | .ok growth =>
      if env.isEmpty then .haltedEnvMissing
      else if growth.isEmpty then .haltedGrowthMissing
      else .rendered

/-! Aggregation (tab 1 counts, tab 2 environment means, tab 3 summary). -/

/-- Arithmetic mean as computed by pandas over a group. -/
def ratMean (xs : List Rat) : Rat := xs.sum / (xs.length : Rat)

/-- Rows of one school group of the environment table. -/
def schoolRows (env : List EnvRow) (s : Name) : List EnvRow :=
  env.filter fun r => r.school == s

/-- Per-group means of the four sensor columns. -/
structure EnvMeans where
  temperature : Rat
  humidity : Rat
  ph : Rat
  ec : Rat
deriving DecidableEq

/-- Model of the tab 2 aggregation (avg_env, src/main.py lines 179-183):
group the unified environment table by the school column and take the
arithmetic mean of the four sensor columns per group.  Only schools that
occur in the table form groups; pandas additionally sorts the group keys, an
ordering no claim depends on. -/
def avg_env (env : List EnvRow) : List (Name × EnvMeans) :=
  ((env.map fun r => r.school).dedup).map fun s =>
    (s,
      { temperature := ratMean ((schoolRows env s).map fun r => r.temperature),
        humidity := ratMean ((schoolRows env s).map fun r => r.humidity),
        ph := ratMean ((schoolRows env s).map fun r => r.ph),
        ec := ratMean ((schoolRows env s).map fun r => r.ec) })

/-- Model of the per-school specimen count of tab 1 (src/main.py line 170). -/
def schoolCount (growth : List GrowthRow) (s : Name) : Nat :=
  growth.countP fun r => r.school == s

/-- Pairs (target EC, fresh weight) from tagging the growth table with the
fixed mapping (line 203); rows of an unrecognized school get a missing EC
and are dropped by the groupby, as pandas drops missing group keys. -/
def ecTagged (growth : List GrowthRow) : List (Rat × Rat) :=
  growth.filterMap fun r => (ecTargetOf r.school).map fun ec => (ec, r.weight)

/-- Ascending insertion by EC level (the sort_values call; group keys are
distinct, so stability is immaterial). -/
def insertByEC (x : Rat × Rat) : List (Rat × Rat) → List (Rat × Rat)
  | [] => [x]
  | y :: ys => if x.1 < y.1 then x :: y :: ys else y :: insertByEC x ys

def sortByEC : List (Rat × Rat) → List (Rat × Rat)
  | [] => []
  | x :: xs => insertByEC x (sortByEC xs)

/-- Model of the tab 3 summary (src/main.py lines 205-210): group the tagged
growth table by target EC value and take the mean fresh weight per EC level,
sorted by EC ascending. -/
def ec_summary (growth : List GrowthRow) : List (Rat × Rat) :=
  sortByEC ((((ecTagged growth).map fun p => p.1).dedup).map fun k =>
    (k, ratMean (((ecTagged growth).filter fun p => p.1 == k).map fun p => p.2)))

/-- The optimal EC reported by the dashboard: the dashed vline of tab 3 sits
at the literal constant 2.0 (src/main.py line 219) with a fixed caption
naming 하늘고; it is not computed from the summary. -/
def optimal_EC_marker : Rat := 2

/-- Modelled from the spec, for refinement comparison only (the source has
no such computation): the EC level of maximum mean fresh weight, ties broken
by first occurrence in EC-ascending order. -/
def spec_optimal_EC (summary : List (Rat × Rat)) : Option Rat :=
  (summary.foldl (fun acc p =>
    match acc with
    | none => some p
    | some q => if q.2 < p.2 then some p else some q) none).map fun p => p.1

/-! Derived views of the environment loader used to state the claims. -/

/-- The matcher: first directory entry that is a file and whose name equals
the target after normalization. -/
def firstMatch (dir : List DirEntry) (target : Name) : Option DirEntry :=
  dir.find? fun e => e.isFile && same_name e.name target

/-- Index form of the matcher. -/
def firstMatchIdx (dir : List DirEntry) (target : Name) : Nat :=
  dir.findIdx fun e => e.isFile && same_name e.name target

/-- Whether the scan for one logical filename hits a file whose read raises. -/
def fileBad (dir : List DirEntry) (f : Name) : Bool :=
  match firstMatch dir f with
  | some e =>
    match read_csv e.data with
    | .ok _ => false
    | .error _ => true
  | none => false

/-- Rows contributed to the union by one logical filename. -/
def envContrib (parse : String → Option Nat) (dir : List DirEntry) (f : Name) :
    List EnvRow :=
  match firstMatch dir f with
  | some e =>
    match read_csv e.data with
    | .ok raws => load_csv_rows parse f raws
    | .error _ => []
  | none => []

/-- Whether a loader call returned normally (no uncaught exception). -/
def exceptOk {α : Type} : Except Unit α → Bool
  | .ok _ => true
  | .error _ => false

/-! Concrete inputs used as test data by the witnesses and counterexamples. -/

/-- A timestamp parser that accepts nothing; to_datetime with coerce turns
every value into the missing marker under it. -/
def parse0 : String → Option Nat := fun _ => none

/-- Directory contents with one corrupt environment CSV and one readable
one. -/
def corruptDir : List DirEntry :=
  [⟨cps "송도고_환경데이터.csv", true, .corrupt⟩,
    ⟨cps "하늘고_환경데이터.csv", true, .csv [⟨"2024-01-01", 20, 50, 7, 2⟩]⟩]

/-- Directory contents with three of the four environment CSV files present
and the 하늘고 file missing. -/
def partialDir : List DirEntry :=
  [⟨cps "송도고_환경데이터.csv", true, .csv [⟨"2024-01-01", 20, 50, 7, 1⟩]⟩,
    ⟨cps "아라고_환경데이터.csv", true, .csv [⟨"2024-01-02", 21, 51, 6, 4⟩]⟩,
    ⟨cps "동산고_환경데이터.csv", true, .csv [⟨"2024-01-03", 22, 52, 5, 8⟩]⟩]

/-- Directory contents with two entries both matching the 송도고 CSV target,
the first one stored in decomposed spelling. -/
def dupDir : List DirEntry :=
  [⟨nfd (cps "송도고_환경데이터.csv"), true, .csv [⟨"x", 1, 2, 3, 4⟩]⟩,
    ⟨cps "송도고_환경데이터.csv", true, .csv [⟨"y", 9, 9, 9, 9⟩]⟩]

/-- Growth rows whose EC-level means are 1.0 : 10.0 and 2.0 : 1.0, so the
maximum mean fresh weight sits at EC 1.0, not at the marked 2.0. -/
def skewedGrowth : List GrowthRow :=
  [⟨10, cps "송도고"⟩, ⟨1, cps "하늘고"⟩]

/-- Growth rows with the maximum mean fresh weight tied between EC levels
4.0 and 8.0. -/
def tieGrowth : List GrowthRow :=
  [⟨1, cps "송도고"⟩, ⟨7, cps "아라고"⟩, ⟨7, cps "동산고"⟩]

/-- Growth rows realizing the mean fresh weights 1.0 : 5.0, 2.0 : 9.0,
4.0 : 7.0, 8.0 : 3.0 of the worked example. -/
def exampleGrowth : List GrowthRow :=
  [⟨5, cps "송도고"⟩, ⟨9, cps "하늘고"⟩, ⟨7, cps "아라고"⟩, ⟨3, cps "동산고"⟩]

/-! Lemmas about the Hangul composition model. -/

lemma composePair_none (a b : Nat) (h : b < VBase ∨ TBase + TCount ≤ b) :
    composePair a b = none := by
  have h1 : ¬(LBase ≤ a ∧ a < LBase + LCount ∧ VBase ≤ b ∧ b < VBase + VCount) := by
    simp only [LBase, LCount, VBase, VCount, TBase, TCount] at h ⊢
    omega
  have h2 : ¬(SBase ≤ a ∧ a < SBase + SCount ∧ (a - SBase) % TCount = 0 ∧
      TBase < b ∧ b < TBase + TCount) := by
    simp only [SBase, SCount, LCount, NCount, VCount, VBase, TBase, TCount] at h ⊢
    omega
  unfold composePair
  rw [if_neg h1, if_neg h2]

lemma composePair_some_range (a b m : Nat) (h : composePair a b = some m) :
    SBase ≤ m ∧ m < SBase + SCount := by
  unfold composePair at h
  split_ifs at h with h1 h2
  · simp only [Option.some.injEq] at h
    simp only [SBase, SCount, LBase, LCount, NCount, VCount, VBase, TBase, TCount] at h h1 ⊢
    omega
  · simp only [Option.some.injEq] at h
    simp only [SBase, SCount, LBase, LCount, NCount, VCount, VBase, TBase, TCount] at h h2 ⊢
    omega

lemma nfcAux_fix (rest : List Nat) : ∀ last : Nat,
    nfc (nfcAux last rest) = nfcAux last rest ∧
    ∀ x, composePair x last = none →
      nfcAux x (nfcAux last rest) = x :: nfcAux last rest := by
  induction rest with
  | nil =>
    intro last
    refine ⟨rfl, fun x hx => ?_⟩
    simp only [nfcAux, hx]
  | cons c rs ih =>
    intro last
    cases hcl : composePair last c with
    | some m =>
      have hrange := composePair_some_range last c m hcl
      have hnone : ∀ x, composePair x m = none := fun x =>
        composePair_none x m (Or.inr (by
          simp only [SBase, TBase, TCount] at hrange ⊢
          omega))
      constructor
      · simp only [nfcAux, hcl]
        exact (ih m).1
      · intro x hx
        simp only [nfcAux, hcl]
        exact (ih m).2 x (hnone x)
    | none =>
      constructor
      · simp only [nfcAux, hcl]
        show nfcAux last (nfcAux c rs) = last :: nfcAux c rs
        exact (ih c).2 last hcl
      · intro x hx
        simp only [nfcAux, hcl, hx]
        rw [(ih c).2 last hcl]

lemma nfc_idem (s : List Nat) : nfc (nfc s) = nfc s := by
  cases s with
  | nil => rfl
  | cons c rest => exact (nfcAux_fix rest c).1

lemma hangul_l_lt_VBase (c : Nat) (hc : SBase ≤ c ∧ c < SBase + SCount) :
    LBase + (c - SBase) / NCount < VBase := by
  simp only [SBase, SCount, LBase, LCount, NCount, VCount, VBase, TBase, TCount] at hc ⊢
  omega

lemma hangul_lv (c : Nat) (hc : SBase ≤ c ∧ c < SBase + SCount) :
    composePair (LBase + (c - SBase) / NCount)
      (VBase + ((c - SBase) % NCount) / TCount) =
    some (SBase +
      ((c - SBase) / NCount * VCount + ((c - SBase) % NCount) / TCount) * TCount) := by
  unfold composePair
  split_ifs with h1 h2
  · simp only [Option.some.injEq]
    simp only [SBase, SCount, LBase, LCount, NCount, VCount, VBase, TBase, TCount]
    omega
  · exfalso
    simp only [SBase, SCount, LBase, LCount, NCount, VCount, VBase, TBase, TCount] at hc h1 h2
    omega
  · exfalso
    simp only [SBase, SCount, LBase, LCount, NCount, VCount, VBase, TBase, TCount] at hc h1
    omega

lemma hangul_lv_eq (c : Nat) (hc : SBase ≤ c ∧ c < SBase + SCount)
    (ht : (c - SBase) % TCount = 0) :
    SBase + ((c - SBase) / NCount * VCount + ((c - SBase) % NCount) / TCount) * TCount
      = c := by
  simp only [SBase, SCount, LBase, LCount, NCount, VCount, VBase, TBase, TCount] at hc ht ⊢
  omega

lemma hangul_lvt (c : Nat) (hc : SBase ≤ c ∧ c < SBase + SCount)
    (ht : (c - SBase) % TCount ≠ 0) :
    composePair
      (SBase + ((c - SBase) / NCount * VCount + ((c - SBase) % NCount) / TCount) * TCount)
      (TBase + (c - SBase) % TCount) = some c := by
  unfold composePair
  split_ifs with h1 h2
  · exfalso
    simp only [SBase, SCount, LBase, LCount, NCount, VCount, VBase, TBase, TCount] at hc ht h1
    omega
  · simp only [Option.some.injEq]
    simp only [SBase, SCount, LBase, LCount, NCount, VCount, VBase, TBase, TCount] at hc ht ⊢
    omega
  · exfalso
    simp only [SBase, SCount, LBase, LCount, NCount, VCount, VBase, TBase, TCount]
      at hc ht h1 h2
    omega

lemma nfcAux_cons_none (last c : Nat) (rest : List Nat) (h : composePair last c = none) :
    nfcAux last (c :: rest) = last :: nfcAux c rest := by
  simp only [nfcAux, h]

lemma nfcAux_cons_some (last c m : Nat) (rest : List Nat) (h : composePair last c = some m) :
    nfcAux last (c :: rest) = nfcAux m rest := by
  simp only [nfcAux, h]

lemma nfc_cons (a : Nat) (rest : List Nat) : nfc (a :: rest) = nfcAux a rest := rfl

lemma decomp_append_eq (c : Nat) (hc : SBase ≤ c ∧ c < SBase + SCount)
    (ht : (c - SBase) % TCount = 0) (rest : List Nat) :
    decompChar c ++ rest = (LBase + (c - SBase) / NCount) ::
      (VBase + ((c - SBase) % NCount) / TCount) :: rest := by
  rw [decompChar, if_pos hc, if_pos ht]
  rfl

lemma decomp_append_eq3 (c : Nat) (hc : SBase ≤ c ∧ c < SBase + SCount)
    (ht : ¬(c - SBase) % TCount = 0) (rest : List Nat) :
    decompChar c ++ rest = (LBase + (c - SBase) / NCount) ::
      (VBase + ((c - SBase) % NCount) / TCount) ::
      (TBase + (c - SBase) % TCount) :: rest := by
  rw [decompChar, if_pos hc, if_neg ht]
  rfl

lemma nfcAux_decomp (c : Nat) (hc : SBase ≤ c ∧ c < SBase + SCount) (rest : List Nat)
    (last : Nat) : nfcAux last (decompChar c ++ rest) = last :: nfcAux c rest := by
  have hlv := hangul_lv c hc
  have hlnone : composePair last (LBase + (c - SBase) / NCount) = none :=
    composePair_none last _ (Or.inl (hangul_l_lt_VBase c hc))
  by_cases ht : (c - SBase) % TCount = 0
  · rw [decomp_append_eq c hc ht rest, nfcAux_cons_none _ _ _ hlnone,
      nfcAux_cons_some _ _ _ _ hlv, hangul_lv_eq c hc ht]
  · rw [decomp_append_eq3 c hc ht rest, nfcAux_cons_none _ _ _ hlnone,
      nfcAux_cons_some _ _ _ _ hlv, nfcAux_cons_some _ _ _ _ (hangul_lvt c hc ht)]

lemma nfc_decomp (c : Nat) (hc : SBase ≤ c ∧ c < SBase + SCount) (rest : List Nat) :
    nfc (decompChar c ++ rest) = nfcAux c rest := by
  have hlv := hangul_lv c hc
  by_cases ht : (c - SBase) % TCount = 0
  · rw [decomp_append_eq c hc ht rest, nfc_cons,
      nfcAux_cons_some _ _ _ _ hlv, hangul_lv_eq c hc ht]
  · rw [decomp_append_eq3 c hc ht rest, nfc_cons,
      nfcAux_cons_some _ _ _ _ hlv, nfcAux_cons_some _ _ _ _ (hangul_lvt c hc ht)]

lemma nfd_cons (c : Nat) (rs : List Nat) : nfd (c :: rs) = decompChar c ++ nfd rs := by
  simp [nfd]

lemma nfcAux_nfd (s : List Nat) : ∀ last, nfcAux last (nfd s) = nfcAux last s := by
  induction s with
  | nil => intro last; rfl
  | cons c rs ih =>
    intro last
    rw [nfd_cons]
    by_cases hc : SBase ≤ c ∧ c < SBase + SCount
    · have hnone : composePair last c = none :=
        composePair_none last c (Or.inr (by
          simp only [SBase, TBase, TCount] at hc ⊢
          omega))
      rw [nfcAux_decomp c hc (nfd rs) last, ih c, nfcAux_cons_none _ _ _ hnone]
    · have hd : decompChar c = [c] := by rw [decompChar, if_neg hc]
      rw [hd]
      show nfcAux last (c :: nfd rs) = nfcAux last (c :: rs)
      cases hcl : composePair last c with
      | some m => rw [nfcAux_cons_some _ _ _ _ hcl, nfcAux_cons_some _ _ _ _ hcl, ih m]
      | none => rw [nfcAux_cons_none _ _ _ hcl, nfcAux_cons_none _ _ _ hcl, ih c]

lemma nfc_nfd (s : List Nat) : nfc (nfd s) = nfc s := by
  cases s with
  | nil => rfl
  | cons c rs =>
    rw [nfd_cons]
    by_cases hc : SBase ≤ c ∧ c < SBase + SCount
    · rw [nfc_decomp c hc (nfd rs), nfc_cons]
      exact nfcAux_nfd rs c
    · have hd : decompChar c = [c] := by rw [decompChar, if_neg hc]
      rw [hd]
      show nfcAux c (nfd rs) = nfcAux c rs
      exact nfcAux_nfd rs c

lemma same_name_nfd_left (a b : Name) : same_name (nfd a) b = same_name a b := by
  simp [same_name, nfc_nfd]

lemma same_name_nfc_left (a b : Name) : same_name (nfc a) b = same_name a b := by
  simp [same_name, nfc_idem]

lemma same_name_refl (a : Name) : same_name a a = true := by
  simp [same_name]

/-! Characterization of the environment loader. -/

lemma scanEnvFile_eq (parse : String → Option Nat) (f : Name) (dir : List DirEntry) :
    scanEnvFile parse f dir =
      if fileBad dir f then .error () else .ok (envContrib parse dir f) := by
  induction dir with
  | nil => rfl
  | cons e rest ih =>
    by_cases hp : (e.isFile && same_name e.name f) = true
    · cases hr : read_csv e.data with
      | ok raws =>
        simp [scanEnvFile, fileBad, envContrib, firstMatch, List.find?_cons, hp, hr]
      | error u =>
        simp [scanEnvFile, fileBad, envContrib, firstMatch, List.find?_cons, hp, hr]
    · have hfm : firstMatch (e :: rest) f = firstMatch rest f := by
        simp [firstMatch, List.find?_cons, hp]
      simp only [scanEnvFile, fileBad, envContrib, hfm]
      rw [if_neg (by simpa using hp)]
      simp only [fileBad, envContrib] at ih
      exact ih

lemma loadEnvFiles_eq (parse : String → Option Nat) (dir : List DirEntry)
    (fs : List Name) :
    loadEnvFiles parse dir fs =
      if fs.any (fun f => fileBad dir f) then .error ()
      else .ok (fs.flatMap (envContrib parse dir)) := by
  induction fs with
  | nil => rfl
  | cons f fs ih =>
    simp only [loadEnvFiles]
    rw [scanEnvFile_eq]
    by_cases hb : fileBad dir f = true
    · simp [hb]
    · rw [if_neg (by simpa using hb)]
      rw [ih]
      by_cases ha : fs.any (fun g => fileBad dir g) = true
      · simp [hb, ha]
      · simp [hb, ha]

lemma load_environment_data_eq (parse : String → Option Nat) (dir : List DirEntry) :
    load_environment_data parse dir =
      if ENV_FILES.any (fun f => fileBad dir f) then .error ()
      else .ok (ENV_FILES.flatMap (envContrib parse dir)) :=
  loadEnvFiles_eq parse dir ENV_FILES

lemma envContrib_school (parse : String → Option Nat) (dir : List DirEntry)
    (f : Name) (r : EnvRow) (hr : r ∈ envContrib parse dir f) :
    r.school = underscoreStem f := by
  unfold envContrib at hr
  rcases hfm : firstMatch dir f with _ | e
  · simp [hfm] at hr
  · rcases hrd : read_csv e.data with u | raws
    · simp [hfm, hrd] at hr
    · simp only [hfm, hrd] at hr
      unfold load_csv_rows at hr
      rcases List.mem_map.mp hr with ⟨raw, _, heq⟩
      rw [← heq]

/-! Characterization of the directory resolver. -/

lemma find_go_none (fs : List FsPath) : ∀ (n : Nat) (cur : FsPath),
    (∀ i, i < n → (iterParent cur i ++ ["data"]) ∉ fs) →
    find_data_dir_go fs n cur = none := by
  intro n
  induction n with
  | zero => intro cur _; rfl
  | succ n ih =>
    intro cur h
    have h0 : (cur ++ ["data"]) ∉ fs := h 0 (Nat.succ_pos n)
    simp only [find_data_dir_go]
    rw [if_neg h0]
    exact ih cur.dropLast fun i hi => h (i + 1) (Nat.succ_lt_succ hi)

lemma find_go_some (fs : List FsPath) : ∀ (n j : Nat) (cur : FsPath), j < n →
    (iterParent cur j ++ ["data"]) ∈ fs →
    (∀ i, i < j → (iterParent cur i ++ ["data"]) ∉ fs) →
    find_data_dir_go fs n cur = some (iterParent cur j ++ ["data"]) := by
  intro n
  induction n with
  | zero => intro j cur hj _ _; exact absurd hj (Nat.not_lt_zero j)
  | succ n ih =>
    intro j cur hj hmem hmin
    cases j with
    | zero =>
      have hmem2 : (cur ++ ["data"]) ∈ fs := hmem
      simp only [find_data_dir_go]
      rw [if_pos hmem2]
      rfl
    | succ j' =>
      have h0 : (cur ++ ["data"]) ∉ fs := hmin 0 (Nat.succ_pos j')
      simp only [find_data_dir_go]
      rw [if_neg h0]
      exact ih j' cur.dropLast (Nat.lt_of_succ_lt_succ hj) hmem
        fun i hi => hmin (i + 1) (Nat.succ_lt_succ hi)

lemma ratMean_singleton (x : Rat) : ratMean [x] = x := by
  simp [ratMean]

lemma ec_summary_exampleGrowth : ec_summary exampleGrowth = [(1, 5), (2, 9), (4, 7), (8, 3)] := by
  have h1 : ec_summary exampleGrowth
      = sortByEC [(1, ratMean [5]), (2, ratMean [9]), (4, ratMean [7]), (8, ratMean [3])] := rfl
  rw [h1]
  simp only [ratMean_singleton]
  decide

example : spec_optimal_EC [(1, 5), (2, 9), (4, 7), (8, 3)] = some 2 := by decide

example : load_environment_data parse0 corruptDir = Except.error () := rfl

example : cps "송_도" = [0xC1A1, 0x5F, 0xB3C4] := by decide

/-! Claim C3. -/

lemma matcher_spelling_indep (f g1 g2 : Name) (d : FileData)
    (h1 : same_name g1 f = true) (h2 : same_name g2 f = true)
    (pre post : List DirEntry) :
    firstMatchIdx (pre ++ ⟨g1, true, d⟩ :: post) f
      = firstMatchIdx (pre ++ ⟨g2, true, d⟩ :: post) f ∧
    (firstMatch (pre ++ ⟨g1, true, d⟩ :: post) f).map DirEntry.data
      = (firstMatch (pre ++ ⟨g2, true, d⟩ :: post) f).map DirEntry.data := by
  induction pre with
  | nil =>
    constructor
    · simp [firstMatchIdx, List.findIdx_cons, h1, h2]
    · simp [firstMatch, List.find?_cons, h1, h2]
  | cons a pre ih =>
    cases hp : (a.isFile && same_name a.name f) with
    | true =>
      constructor
      · simp [firstMatchIdx, List.findIdx_cons, hp]
      · simp [firstMatch, List.find?_cons, hp]
    | false =>
      constructor
      · simp only [List.cons_append, firstMatchIdx, List.findIdx_cons, hp,
          cond_false]
        simp only [firstMatchIdx] at ih
        rw [ih.1]
      · simp only [List.cons_append, firstMatch, List.find?_cons, hp]
        simp only [firstMatch] at ih
        exact ih.2

/-- C3: for every target filename and every directory, the matcher selects
the same logical entry whether the filesystem stores the name composed (NFC)
or decomposed (NFD): the matched position and the matched file contents
agree between the two listings, and the name comparison itself accepts both
spellings because both sides are normalized before comparing (same_name is
true on either spelling even when the raw code point sequences differ). -/
theorem filename_match_normalization_invariant (f : Name) (d : FileData)
    (pre post : List DirEntry) :
    same_name (nfd f) f = true ∧
    same_name (nfc f) f = true ∧
    firstMatchIdx (pre ++ ⟨nfc f, true, d⟩ :: post) f
      = firstMatchIdx (pre ++ ⟨nfd f, true, d⟩ :: post) f ∧
    (firstMatch (pre ++ ⟨nfc f, true, d⟩ :: post) f).map DirEntry.data
      = (firstMatch (pre ++ ⟨nfd f, true, d⟩ :: post) f).map DirEntry.data := by
  have h1 : same_name (nfc f) f = true := by
    rw [same_name_nfc_left]
    exact same_name_refl f
  have h2 : same_name (nfd f) f = true := by
    rw [same_name_nfd_left]
    exact same_name_refl f
  have h := matcher_spelling_indep f (nfc f) (nfd f) d h1 h2 pre post
  exact ⟨h2, h1, h.1, h.2⟩

/-! Claim C4. -/

/-- C4: the resolver probes the start location and its successive parents,
five locations in all; it returns none exactly when no probed ancestor level
has a data subdirectory, and when one does, it returns the data directory of
the nearest qualifying level (closest wins, start first, then parents). -/
theorem find_data_dir_correct (fs : List FsPath) (start : FsPath) :
    ((∀ i, i < 5 → (iterParent start i ++ ["data"]) ∉ fs) →
      find_data_dir fs start = none) ∧
    ∀ j, j < 5 → (iterParent start j ++ ["data"]) ∈ fs →
      (∀ i, i < j → (iterParent start i ++ ["data"]) ∉ fs) →
      find_data_dir fs start = some (iterParent start j ++ ["data"]) :=
  ⟨fun h => find_go_none fs 5 start h,
    fun j hj hmem hmin => find_go_some fs 5 j start hj hmem hmin⟩

/-- Witness for C4: with a data directory both next to the start and two
levels up, the nearest one wins; with none within reach, the probe fails. -/
theorem find_data_dir_correct_witness :
    find_data_dir [["a", "b", "data"], ["data"]] ["a", "b"]
        = some ["a", "b", "data"] ∧
    find_data_dir [["z", "data"]] ["a", "b"] = none := by
  constructor
  · exact (find_data_dir_correct [["a", "b", "data"], ["data"]] ["a", "b"]).2 0
      (by omega) (by decide) (fun i hi => absurd hi (Nat.not_lt_zero i))
  · exact (find_data_dir_correct [["z", "data"]] ["a", "b"]).1 (by decide)

/-! Claim C5. -/

/-- C5: a row whose timestamp does not parse is neither dropped nor fatal:
the per-file transformation preserves the row count and maps row i to the
same row with the timestamp replaced by the parse result, which is the
missing marker (none) exactly when the value is unparseable; moreover
whether the loader as a whole raises never depends on the timestamp parser
(conjunct three compares two arbitrary parsers on the same directory). -/
theorem env_row_missing_timestamp_retained (parse parse2 : String → Option Nat)
    (fname : Name) (raws : List RawEnvRow) (i : Nat) (dir : List DirEntry) :
    (load_csv_rows parse fname raws).length = raws.length ∧
    (load_csv_rows parse fname raws).get? i
      = (raws.get? i).map (fun r =>
          { time := parse r.time, temperature := r.temperature,
            humidity := r.humidity, ph := r.ph, ec := r.ec,
            school := underscoreStem fname }) ∧
    exceptOk (load_environment_data parse dir)
      = exceptOk (load_environment_data parse2 dir) := by
  refine ⟨by simp [load_csv_rows], ?_, ?_⟩
  · simp [load_csv_rows]
  · rw [load_environment_data_eq, load_environment_data_eq]
    by_cases h : ENV_FILES.any (fun f => fileBad dir f) = true
    · simp [h, exceptOk]
    · simp [h, exceptOk]

/-! Claim C7. -/

/-- C7: a configured school with no environment readings has no entry in the
per-school mean table: the lookup of that school is the explicit undefined
result none rather than a row of NaN means; and every entry that does occur
comes from a non-empty group, so each mean is a genuine sum over count of a
group with positive count. -/
theorem avg_env_empty_group_undefined (env : List EnvRow) (s : Name)
    (_hs : s ∈ SCHOOLS) (hempty : ∀ r ∈ env, r.school ≠ s) :
    (avg_env env).find? (fun p => p.1 == s) = none ∧
    ∀ p ∈ avg_env env, 0 < (schoolRows env p.1).length := by
  constructor
  · apply List.find?_eq_none.mpr
    intro p hp
    rcases List.mem_map.mp hp with ⟨k, hk, rfl⟩
    have hk2 : k ∈ env.map (fun r => r.school) := List.mem_dedup.mp hk
    rcases List.mem_map.mp hk2 with ⟨r, hr, rfl⟩
    simp only [beq_iff_eq]
    exact hempty r hr
  · intro p hp
    rcases List.mem_map.mp hp with ⟨k, hk, rfl⟩
    have hk2 : k ∈ env.map (fun r => r.school) := List.mem_dedup.mp hk
    rcases List.mem_map.mp hk2 with ⟨r, hr, hrk⟩
    have hmem : r ∈ schoolRows env k := List.mem_filter.mpr ⟨hr, by simp [hrk]⟩
    exact List.length_pos.mpr (List.ne_nil_of_mem hmem)

/-- Witness for C7: a table holding only a 송도고 reading has no mean entry
for 하늘고. -/
theorem avg_env_empty_group_undefined_witness :
    (avg_env [⟨none, 20, 50, 7, 1, cps "송도고"⟩]).find?
      (fun p => p.1 == cps "하늘고") = none :=
  (avg_env_empty_group_undefined [⟨none, 20, 50, 7, 1, cps "송도고"⟩]
    (cps "하늘고") (by decide) (by decide)).1

/-! Claim C8. -/

lemma countP_const {α : Type} (l : List α) (b : Bool) :
    l.countP (fun _ => b) = if b then l.length else 0 := by
  induction l with
  | nil => cases b <;> simp [List.countP_nil]
  | cons a l ih => cases b <;> simp_all [List.countP_cons]

lemma concatSheets_block_count (m n : Name) (rows : List RawGrowthRow) :
    (rows.map fun r => ({ weight := r.weight, school := n } : GrowthRow)).countP
      (fun r => r.school == m) = if n = m then rows.length else 0 := by
  rw [List.countP_map]
  have : ((fun r : GrowthRow => r.school == m) ∘
      fun r : RawGrowthRow => ({ weight := r.weight, school := n } : GrowthRow))
      = fun _ : RawGrowthRow => (n == m) := rfl
  rw [this, countP_const]
  by_cases h : n = m
  · simp [h]
  · simp [h]

lemma concatSheets_count_zero (m : Name) (sheets : List (Name × List RawGrowthRow))
    (h : m ∉ sheets.map Prod.fst) :
    (concatSheets sheets).countP (fun r => r.school == m) = 0 := by
  induction sheets with
  | nil => rfl
  | cons p rest ih =>
    have hne : p.1 ≠ m := by
      intro he
      exact h (by simp [he])
    have hrest : m ∉ rest.map Prod.fst := by
      intro hm
      exact h (by simp [hm])
    simp only [concatSheets, List.flatMap_cons, List.countP_append]
    have hblock := concatSheets_block_count m p.1 p.2
    rw [if_neg hne] at hblock
    simp only [concatSheets] at ih
    rw [hblock, ih hrest]

/-- C8: concatenating the per-sheet growth tables and then re-splitting the
union by the school column reproduces the original per-sheet row counts:
for each sheet, the number of union rows tagged with its school equals the
number of rows of that sheet (sheet names are distinct, as they are the keys
of the workbook dictionary). -/
theorem growth_union_roundtrip_counts (sheets : List (Name × List RawGrowthRow))
    (hnodup : (sheets.map Prod.fst).Nodup) :
    ∀ p ∈ sheets, schoolCount (concatSheets sheets) p.1 = p.2.length := by
  induction sheets with
  | nil => intro p hp; cases hp
  | cons q rest ih =>
    intro p hp
    rw [List.map_cons, List.nodup_cons] at hnodup
    have hcons : concatSheets (q :: rest)
        = (q.2.map fun r => ({ weight := r.weight, school := q.1 } : GrowthRow))
          ++ concatSheets rest := rfl
    rcases List.mem_cons.mp hp with rfl | hpmem
    · unfold schoolCount
      rw [hcons, List.countP_append]
      have hblock := concatSheets_block_count p.1 p.1 p.2
      rw [if_pos rfl] at hblock
      rw [hblock, concatSheets_count_zero p.1 rest hnodup.1]
      omega
    · have hq : q.1 ≠ p.1 := by
        intro he
        exact hnodup.1 (he ▸ List.mem_map_of_mem Prod.fst hpmem)
      have hrec := ih hnodup.2 p hpmem
      unfold schoolCount at hrec ⊢
      rw [hcons, List.countP_append]
      have hblock := concatSheets_block_count p.1 q.1 q.2
      rw [if_neg hq] at hblock
      rw [hblock, hrec]
      omega

/-- Witness for C8: two sheets with two and one rows; the union holds
exactly two rows tagged 송도고. -/
theorem growth_union_roundtrip_counts_witness :
    schoolCount (concatSheets [(cps "송도고", [⟨1⟩, ⟨2⟩]), (cps "하늘고", [⟨3⟩])])
      (cps "송도고") = 2 :=
  growth_union_roundtrip_counts
    [(cps "송도고", [⟨1⟩, ⟨2⟩]), (cps "하늘고", [⟨3⟩])] (by decide)
    (cps "송도고", [⟨1⟩, ⟨2⟩]) (by decide)

/-! Claim C9. -/

lemma load_growth_none (dir : List DirEntry)
    (hno : ∀ e ∈ dir, (e.isFile && same_name e.name GROWTH_FILE) = false) :
    load_growth_data dir = .ok [] := by
  induction dir with
  | nil => rfl
  | cons e rest ih =>
    have he := hno e (List.mem_cons_self e rest)
    simp only [load_growth_data]
    rw [if_neg (by simp [he])]
    exact ih fun e2 h2 => hno e2 (List.mem_cons_of_mem e h2)

/-- C9: when no directory entry is a file matching the growth spreadsheet
name, the growth loader returns the empty table, and the dashboard halts
behind one of the two fatal messages (the growth one when the environment
table is non-empty) instead of rendering the charts. -/
theorem growth_missing_file_halts (parse : String → Option Nat)
    (dir : List DirEntry) (env : List EnvRow)
    (hno : ∀ e ∈ dir, (e.isFile && same_name e.name GROWTH_FILE) = false)
    (henv : load_environment_data parse dir = .ok env) :
    load_growth_data dir = .ok [] ∧
    dashboard parse dir
      = (if env.isEmpty then Outcome.haltedEnvMissing
          else Outcome.haltedGrowthMissing) ∧
    dashboard parse dir ≠ Outcome.rendered := by
  have hgg := load_growth_none dir hno
  have hd : dashboard parse dir
      = if env.isEmpty then Outcome.haltedEnvMissing
        else Outcome.haltedGrowthMissing := by
    by_cases he : env.isEmpty <;> simp [dashboard, henv, hgg, he]
  refine ⟨hgg, hd, ?_⟩
  rw [hd]
  by_cases he : env.isEmpty <;> simp [he]

/-- Witness for C9: three environment CSV files and no spreadsheet halt the
dashboard behind the growth-data message. -/
theorem growth_missing_file_halts_witness :
    dashboard parse0 partialDir = Outcome.haltedGrowthMissing := by
  have h := growth_missing_file_halts parse0 partialDir
    [⟨none, 20, 50, 7, 1, cps "송도고"⟩, ⟨none, 21, 51, 6, 4, cps "아라고"⟩,
      ⟨none, 22, 52, 5, 8, cps "동산고"⟩] (by decide) rfl
  simpa using h.2.1

/-! Claim C10. -/

/-- C10: whenever the environment loader returns a table, that table is the
union over the four logical filenames of the rows of at most one on-disk
file each, namely the first directory entry matching under normalization
(the scan equation, conjunct two, shows the per-filename scan answers from
the first match only); the school tag of every loaded row is the part of
the logical constant filename before its first underscore, and those stems
are exactly the four fixed school identifiers, so every school value of the
table is one of the four regardless of how the on-disk names are spelled. -/
theorem env_loader_school_invariant (parse : String → Option Nat)
    (dir : List DirEntry) (rows : List EnvRow)
    (h : load_environment_data parse dir = .ok rows) :
    rows = ENV_FILES.flatMap (envContrib parse dir) ∧
    (∀ f, scanEnvFile parse f dir
        = if fileBad dir f then .error () else .ok (envContrib parse dir f)) ∧
    ENV_FILES.map underscoreStem = SCHOOLS ∧
    ∀ r ∈ rows, r.school ∈ SCHOOLS := by
  have heq := load_environment_data_eq parse dir
  rw [h] at heq
  by_cases hb : ENV_FILES.any (fun f => fileBad dir f) = true
  · rw [if_pos hb] at heq
    exact absurd heq (by simp)
  · rw [if_neg hb] at heq
    obtain rfl : rows = ENV_FILES.flatMap (envContrib parse dir) := by
      simpa using heq
    refine ⟨rfl, fun f => scanEnvFile_eq parse f dir, by decide, ?_⟩
    intro r hr
    rcases List.mem_flatMap.mp hr with ⟨f, hf, hrf⟩
    rw [envContrib_school parse dir f r hrf]
    have hm : underscoreStem f ∈ ENV_FILES.map underscoreStem :=
      List.mem_map_of_mem underscoreStem hf
    rwa [show ENV_FILES.map underscoreStem = SCHOOLS from by decide] at hm

/-- Witness for C10: a directory holding two files both matching the 송도고
CSV name (one stored decomposed); only the first match contributes rows, and
the loaded table is the contribution union. -/
theorem env_loader_school_invariant_witness :
    [({ time := none, temperature := 1, humidity := 2, ph := 3, ec := 4,
        school := cps "송도고" } : EnvRow)]
      = ENV_FILES.flatMap (envContrib parse0 dupDir) :=
  (env_loader_school_invariant parse0 dupDir
    [{ time := none, temperature := 1, humidity := 2, ph := 3, ec := 4,
        school := cps "송도고" }] rfl).1

/-! Claim C1. -/

/-- C1 counterexample: with EC-level means 1.0 : 10.0 and 2.0 : 1.0, the
maximum mean fresh weight (with the lower-EC tie rule) sits at EC 1.0, yet
the reported optimal EC is the fixed marker 2.0; with the maximum mean tied
between 4.0 and 8.0, the tie rule selects 4.0, but the reported value is
still 2.0 - so the dashboard does not compute the optimal EC from the
summary and does not apply the tie rule. -/
theorem optimal_EC_marker_counterexample :
    ec_summary skewedGrowth = [(1, 10), (2, 1)] ∧
    spec_optimal_EC (ec_summary skewedGrowth) = some 1 ∧
    optimal_EC_marker = 2 ∧
    spec_optimal_EC (ec_summary skewedGrowth) ≠ some optimal_EC_marker ∧
    ec_summary tieGrowth = [(1, 1), (4, 7), (8, 7)] ∧
    spec_optimal_EC (ec_summary tieGrowth) = some 4 ∧
    spec_optimal_EC (ec_summary tieGrowth) ≠ some optimal_EC_marker := by
  have h1 : ec_summary skewedGrowth = [(1, 10), (2, 1)] := by
    have he : ec_summary skewedGrowth
        = sortByEC [(1, ratMean [10]), (2, ratMean [1])] := rfl
    rw [he]
    simp only [ratMean_singleton]
    decide
  have h2 : ec_summary tieGrowth = [(1, 1), (4, 7), (8, 7)] := by
    have he : ec_summary tieGrowth
        = sortByEC [(1, ratMean [1]), (4, ratMean [7]), (8, ratMean [7])] := rfl
    rw [he]
    simp only [ratMean_singleton]
    decide
  refine ⟨h1, ?_, rfl, ?_, h2, ?_, ?_⟩
  · rw [h1]
    decide
  · rw [h1]
    decide
  · rw [h2]
    decide
  · rw [h2]
    decide

/-- C1 amended: the optimal EC reported by the dashboard is the fixed
constant 2.0, drawn as a hardcoded vline and not computed from the data; on
the worked example with EC-level means 1.0 : 5.0, 2.0 : 9.0, 4.0 : 7.0,
8.0 : 3.0 the constant happens to agree with the EC level of maximum mean
fresh weight under the lower-EC tie rule, which is 2.0. -/
theorem optimal_EC_marker_constant :
    optimal_EC_marker = 2 ∧
    ec_summary exampleGrowth = [(1, 5), (2, 9), (4, 7), (8, 3)] ∧
    spec_optimal_EC (ec_summary exampleGrowth) = some optimal_EC_marker := by
  refine ⟨rfl, ec_summary_exampleGrowth, ?_⟩
  rw [ec_summary_exampleGrowth]
  decide

/-! Claim C2. -/

/-- C2 counterexample: with the 송도고 CSV corrupt and the 하늘고 CSV
readable, the loader does not catch the read failure and does not return the
readable remainder: the exception propagates and the whole load aborts. -/
theorem corrupt_csv_aborts_load_counterexample :
    fileBad corruptDir (cps "송도고_환경데이터.csv") = true ∧
    fileBad corruptDir (cps "하늘고_환경데이터.csv") = false ∧
    load_environment_data parse0 corruptDir = .error () ∧
    ∀ rows, load_environment_data parse0 corruptDir ≠ .ok rows := by
  refine ⟨rfl, rfl, rfl, ?_⟩
  intro rows h
  have h2 : (Except.error () : Except Unit (List EnvRow)) = .ok rows := h
  exact Except.noConfusion h2

/-- C2 amended: a read failure on any of the four logical files (its first
matching entry being unreadable) makes the whole environment load raise, and
no per-file report is emitted: the failure is neither caught nor excluded. -/
theorem corrupt_csv_aborts_load (parse : String → Option Nat)
    (dir : List DirEntry) (f : Name) (hf : f ∈ ENV_FILES)
    (hbad : fileBad dir f = true) :
    load_environment_data parse dir = .error () ∧
    load_environment_reports parse dir = [] := by
  refine ⟨?_, rfl⟩
  rw [load_environment_data_eq]
  have hany : ENV_FILES.any (fun g => fileBad dir g) = true :=
    List.any_eq_true.mpr ⟨f, hf, hbad⟩
  simp [hany]

/-- Witness for C2 amended. -/
theorem corrupt_csv_aborts_load_witness :
    load_environment_data parse0 corruptDir = .error () :=
  (corrupt_csv_aborts_load parse0 corruptDir (cps "송도고_환경데이터.csv")
    (by decide) rfl).1

/-! Claim C6. -/

lemma flatMap_nil_of_forall {α β : Type} (l : List α) (g : α → List β)
    (h : ∀ x ∈ l, g x = []) : l.flatMap g = [] := by
  induction l with
  | nil => rfl
  | cons a l ih =>
    rw [List.flatMap_cons, h a (List.mem_cons_self a l),
      ih fun x hx => h x (List.mem_cons_of_mem a hx)]
    rfl

/-- C6 counterexample: with the 하늘고 CSV absent and the other three
present, the loader does skip the missing file and still returns a table,
but emits no per-file report of the missing file: the reporting part of the
claim fails on the code. -/
theorem missing_file_not_reported_counterexample :
    (cps "하늘고_환경데이터.csv") ∈ ENV_FILES ∧
    firstMatch partialDir (cps "하늘고_환경데이터.csv") = none ∧
    exceptOk (load_environment_data parse0 partialDir) = true ∧
    load_environment_reports parse0 partialDir = [] := by
  exact ⟨by decide, rfl, rfl, rfl⟩

/-- C6 amended: when no logical filename hits an unreadable first match, the
loader returns the union of the contributions of the files that are present,
each missing file contributing nothing - silently, with no per-file report;
and when none of the four files is found, the loader signals the empty table
and the dashboard halts behind the environment error message rather than
crashing or rendering. -/
theorem env_loader_skips_missing_files (parse : String → Option Nat)
    (dir : List DirEntry)
    (hgood : ∀ f ∈ ENV_FILES, fileBad dir f = false) :
    load_environment_data parse dir
        = .ok (ENV_FILES.flatMap (envContrib parse dir)) ∧
    (∀ f, firstMatch dir f = none → envContrib parse dir f = []) ∧
    load_environment_reports parse dir = [] ∧
    ((∀ f ∈ ENV_FILES, firstMatch dir f = none) →
      load_environment_data parse dir = .ok [] ∧
      ∀ g, load_growth_data dir = .ok g →
        dashboard parse dir = .haltedEnvMissing) := by
  have hany : ENV_FILES.any (fun f => fileBad dir f) = false := by
    rw [List.any_eq_false]
    intro f hf
    simp [hgood f hf]
  have hload : load_environment_data parse dir
      = .ok (ENV_FILES.flatMap (envContrib parse dir)) := by
    rw [load_environment_data_eq, hany]
    rfl
  refine ⟨hload, ?_, rfl, ?_⟩
  · intro f hfm
    simp [envContrib, hfm]
  · intro hnone
    have hempty : ENV_FILES.flatMap (envContrib parse dir) = [] :=
      flatMap_nil_of_forall ENV_FILES (envContrib parse dir) fun f hf => by
        simp [envContrib, hnone f hf]
    have hok : load_environment_data parse dir = .ok [] := by
      rw [hload, hempty]
    refine ⟨hok, fun g hg => ?_⟩
    simp [dashboard, hok, hg]

/-- Witness for C6 amended: three files present load their union; the empty
directory loads nothing and the dashboard halts behind the environment
message. -/
theorem env_loader_skips_missing_files_witness :
    load_environment_data parse0 partialDir
        = .ok (ENV_FILES.flatMap (envContrib parse0 partialDir)) ∧
    dashboard parse0 [] = Outcome.haltedEnvMissing := by
  constructor
  · exact (env_loader_skips_missing_files parse0 partialDir (by decide)).1
  · exact ((env_loader_skips_missing_files parse0 [] (by decide)).2.2.2
      (by decide)).2 [] rfl

example : nfd (cps "송") = [0x1109, 0x1169, 0x11BC] := by decide

example : nfc (nfd (cps "송도고")) = cps "송도고" := by decide

example : same_name (nfd (cps "송도고_환경데이터.csv")) (cps "송도고_환경데이터.csv") = true := by
  decide

end PolarPlant
